import Mathlib

/-!
Verification of the response-sanitization core of the Graphiti knowledge-graph
API wrapper (`memory/api.py`).

The sanitizer `clean_embedding_data` recursively walks an arbitrary Python
value (the raw result of the external graph engine) and strips embedding
vectors and heavy fields before the value crosses the HTTP boundary.  We embed
the Python value universe as the inductive type `Value` and translate the
sanitizer and the endpoint result conversions line by line from the source.
-/

/-- Embedding of the Python value universe the sanitizer operates on:
scalars (`None`, `bool`, `int`, `float`, `str`), ordered sequences (`list`,
`tuple`), string-keyed mappings (`dict`), attribute-bearing objects (their
`__dict__` view), and `foreign` for unrecognized scalar-like values that
expose no length, no indexing and no attribute dictionary (for example
`object()` instances or external handles).  Python `bool` is kept as its own
constructor because `isinstance(True, int)` holds in Python; that fact is
reflected in `isNumberInstance` below.  Mapping keys are strings, matching the
spec's Result Value data model. -/
inductive Value where
  | none
  | bool (b : Bool)
  | int (n : Int)
  | float (q : Rat)
  | str (s : String)
  | list (elems : List Value)
  | tuple (elems : List Value)
  | dict (entries : List (String × Value))
  | obj (attrs : List (String × Value))
  | foreign (tag : String)

/-- Python `x is None`. -/
def isNone : Value → Bool
  | .none => true
  | _ => false

/-- ASCII lower-casing of one character, as Python `str.lower` acts on the
ASCII keys appearing here. -/
def lowerChar (c : Char) : Char :=
  if 'A' ≤ c ∧ c ≤ 'Z' then Char.ofNat (c.toNat + 32) else c

/-- Python `key.lower()` (ASCII). -/
def lowerString (s : String) : String := ⟨s.data.map lowerChar⟩

/-- Character-list test: does the second list start with the first? -/
def leadsWith : List Char → List Char → Bool
  | [], _ => true
  | _ :: _, [] => false
  | a :: as, b :: bs => a == b && leadsWith as bs

/-- Character-list substring containment. -/
def charsContain (needle : List Char) : List Char → Bool
  | [] => needle.isEmpty
  | h :: t => leadsWith needle (h :: t) || charsContain needle t

/-- Python `needle in hay` for strings. -/
def strContains (hay needle : String) : Bool := charsContain needle.data hay.data

/-- Python `isinstance(v, (int, float))`.  Booleans are included because
Python `bool` is a subclass of `int`. -/
def isNumberInstance : Value → Bool
  | .int _ => true
  | .float _ => true
  | .bool _ => true
  | _ => false

/-- `is_large_float_list` (api.py lines 120-128): a value is treated as an
embedding vector when it is a `list` of length at least 32 whose first 64
elements (`val[:64]`, hence all of them when the list is shorter than 64) are
all numbers.  Only `list` passes the `isinstance(val, list)` check; tuples and
other sequences do not. -/
def is_large_float_list : Value → Bool
  | .list l => decide (32 ≤ l.length) && (l.take 64).all isNumberInstance
  | _ => false

/-- `should_drop_key` (api.py lines 130-135): drop a key whose lower-cased
form contains the substring "embedding" or equals `name_embedding` or
`fact_embedding` (both already contain the substring, so the set test is
redundant but kept from the source). -/
def should_drop_key (key : String) : Bool :=
  let lowered := lowerString key
  strContains lowered "embedding" || lowered == "name_embedding"
    || lowered == "fact_embedding"

mutual

/-- `clean_value` (api.py lines 137-172): drop embedding-shaped lists,
rebuild mappings and `__dict__` views as mappings without heavy keys and
without entries whose cleaned value is `None`, rebuild lists and tuples as
lists without elements whose cleaned value is `None`, and pass every other
value through unchanged.  The `None` returned for an embedding-shaped list is
the "absent" sentinel; it is the same value as the `None` scalar. -/
def clean_value (val : Value) : Value :=
  if is_large_float_list val then .none
  else
    match val with
    | .dict entries => .dict (clean_entries entries)
    | .obj attrs => .dict (clean_entries attrs)
    | .list elems => .list (clean_items elems)
    | .tuple elems => .list (clean_items elems)
    | v => v

/-- The `for k, v in ...items()` loop of `clean_value` over a mapping or an
attribute dictionary: skip keys matching `should_drop_key`, skip the key
`attributes`, recursively clean the value and keep the entry only when the
cleaned value `is not None`. -/
def clean_entries : List (String × Value) → List (String × Value)
  | [] => []
  | (k, v) :: rest =>
    if should_drop_key k || k == "attributes" then clean_entries rest
    else if isNone (clean_value v) then clean_entries rest
    else (k, clean_value v) :: clean_entries rest

/-- The list/tuple loop of `clean_value`: clean each item and keep it only
when the cleaned item `is not None`. -/
def clean_items : List Value → List Value
  | [] => []
  | item :: rest =>
    if isNone (clean_value item) then clean_items rest
    else clean_value item :: clean_items rest

end

/-- `clean_embedding_data` (api.py line 174) is `clean_value` applied to the
top-level value. -/
def clean_embedding_data (value : Value) : Value := clean_value value

/-! ### Exception-explicit model of the sanitizer, for the totality claim

Python operations that can raise are modelled in the `Except` monad; the
`try`/`except` block of `is_large_float_list` absorbs any error into `False`.
Proving that the exception-explicit sanitizer always returns `Except.ok` of
the pure result is the formal rendering of "never raises for any input". -/

/-- Python `len(v)`: raises `TypeError` on values with no length. -/
def py_len : Value → Except String Nat
  | .list l => .ok l.length
  | .tuple l => .ok l.length
  | .str s => .ok s.length
  | .dict entries => .ok entries.length
  | _ => .error "TypeError: object has no len()"

/-- Python `isinstance(v, list)`. -/
def isListInstance : Value → Bool
  | .list _ => true
  | _ => false

/-- Python `v[:64]` on a sequence: raises on values with no slicing. -/
def py_take64 : Value → Except String (List Value)
  | .list l => .ok (l.take 64)
  | .tuple l => .ok (l.take 64)
  | _ => .error "TypeError: object is not subscriptable"

/-- The guarded expression inside the `try` block of `is_large_float_list`,
with every Python operation that can raise made explicit:
`isinstance(val, list) and len(val) >= 32 and all(isinstance(v, (int, float))
for v in val[:64])`, evaluated left to right with short-circuiting. -/
def is_large_float_list_try (val : Value) : Except String Bool :=
  if isListInstance val then do
    let n ← py_len val
    if 32 ≤ n then do
      let front ← py_take64 val
      pure (front.all isNumberInstance)
    else pure false
  else pure false

/-- `is_large_float_list` with its `try`/`except Exception: return False`
modelled explicitly: an error raised by the body is absorbed into `false`. -/
def is_large_float_list_absorbed (val : Value) : Bool :=
  match is_large_float_list_try val with
  | .ok b => b
  | .error _ => false

mutual

/-- `clean_value` in the exception-explicit model.  Besides the absorbed
heuristic, every branch of the source dispatches on `isinstance`/`hasattr`
checks that cannot raise, so each branch produces an `ok` value. -/
def clean_valueE (val : Value) : Except String Value :=
  if is_large_float_list_absorbed val then .ok .none
  else
    match val with
    | .dict entries => do pure (Value.dict (← clean_entriesE entries))
    | .obj attrs => do pure (Value.dict (← clean_entriesE attrs))
    | .list elems => do pure (Value.list (← clean_itemsE elems))
    | .tuple elems => do pure (Value.list (← clean_itemsE elems))
    | v => .ok v

/-- Mapping loop of `clean_valueE`. -/
def clean_entriesE : List (String × Value) → Except String (List (String × Value))
  | [] => .ok []
  | (k, v) :: rest => do
    if should_drop_key k || k == "attributes" then clean_entriesE rest
    else
      let cv ← clean_valueE v
      if isNone cv then clean_entriesE rest
      else pure ((k, cv) :: (← clean_entriesE rest))

/-- Sequence loop of `clean_valueE`. -/
def clean_itemsE : List Value → Except String (List Value)
  | [] => .ok []
  | item :: rest => do
    let ci ← clean_valueE item
    if isNone ci then clean_itemsE rest
    else pure (ci :: (← clean_itemsE rest))

end

/-! ### Endpoint result conversions (api.py lines 491-514, 552-573, 618-633) -/

/-- Python `getattr(v, name, default)`: looks the name up in the `__dict__`
view of an attribute-bearing object; on every other value (including
mappings, whose keys are not attributes) it returns the default. -/
def pyGetattr (v : Value) (name : String) (default : Value) : Value :=
  match v with
  | .obj attrs => attrLookup attrs name default
  | _ => default
where
  attrLookup : List (String × Value) → String → Value → Value
    | [], _, d => d
    | (k, w) :: rest, name, d => if k == name then w else attrLookup rest name d

/-- Python `d.get(key, default)` on a mapping's entry list (Python mapping
keys are unique, so first match suffices). -/
def dict_get : List (String × Value) → String → Value → Value
  | [], _, d => d
  | (k, w) :: rest, key, d => if k == key then w else dict_get rest key d

/-- Python `str(v)`.  Only the string case is relied on by any theorem; the
renderings of the remaining cases are irrelevant placeholders. -/
def pyStr : Value → String
  | .str s => s
  | .none => "None"
  | .int n => toString n
  | .bool b => if b then "True" else "False"
  | _ => "<object>"

/-- The fields of the `NodeResponse` pydantic model filled by
`search_nodes`. -/
structure NodeResponse where
  uuid : String
  name : Value
  content_summary : Value
  labels : Value
  created_at : Value

/-- The per-result conversion of `search_nodes` (api.py lines 557-569): the
five response fields are projected directly from the raw node result with
`getattr` and defaults; `clean_embedding_data` is not invoked.  `now` stands
for `datetime.now(timezone.utc).replace(tzinfo=None)`. -/
def node_response_of (now : Value) (result : Value) : NodeResponse :=
  { uuid := pyStr (pyGetattr result "uuid" (.str ""))
    name := pyGetattr result "name" (.str "Unknown")
    content_summary := pyGetattr result "content_summary"
      (pyGetattr result "summary" (.str ""))
    labels := pyGetattr result "labels" (.list [])
    created_at := pyGetattr result "created_at" now }

/-- Modelled from the spec: the spec states that every operation's raw engine
results are "passed through `sanitize` before serialization", naming the
Search-nodes operation in particular; the source of `search_nodes` contains
no such call, so the piped conversion the spec describes is modelled here as
sanitizing the raw node result first and then projecting the response
fields. -/
def node_response_piped (now : Value) (result : Value) : NodeResponse :=
  node_response_of now (clean_embedding_data result)

/-- The fields of the `FactResponse` pydantic model filled by
`search_facts`. -/
structure FactResponse where
  uuid : String
  fact : Value
  valid_from : Value
  valid_until : Value
  source_node_uuid : String

/-- Python `hasattr(v, name)` for the plain data attribute names looked up
here (`fact`): found in the `__dict__` view of an attribute-bearing object;
absent on every other value (the builtin scalar, sequence and mapping types
expose no attribute of that name — mapping keys are not attributes). -/
def pyHasattr (v : Value) (name : String) : Bool :=
  match v with
  | .obj attrs => attrs.any (fun kv => kv.1 == name)
  | _ => false

/-- The per-result conversion of `search_facts` (api.py lines 494-514): the
loop first gates on `hasattr(result, 'fact')`, read from the raw result
before any sanitization; a gated result is passed through
`clean_embedding_data` and a cleaned mapping is read with `dict.get` and
defaults.  The `else` branch of the source reads `cleaned_result.uuid` as a
plain attribute, which raises `AttributeError` on every non-object value and
is surfaced as an endpoint error; the sanitizer never returns an
attribute-bearing object, so that branch is modelled as the absent result.
An ungated result is skipped (no `FactResponse` is appended for it). -/
def fact_response_of (result : Value) : Option FactResponse :=
  if pyHasattr result "fact" then
    match clean_embedding_data result with
    | .dict es => some
        { uuid := pyStr (dict_get es "uuid" (.str ""))
          fact := dict_get es "fact" (.str "")
          valid_from := dict_get es "valid_from" .none
          valid_until := dict_get es "valid_until" .none
          source_node_uuid := pyStr (dict_get es "source_node_uuid" (.str "")) }
    | _ => Option.none
  else Option.none

/-- The per-row conversion of the cypher-query endpoint (api.py lines
692-694): each result row is passed through `clean_embedding_data` and the
cleaned row is appended to the serialized results as-is. -/
def cypher_row_of (row : Value) : Value := clean_embedding_data row

/-- The fields of the `EpisodeResponse` pydantic model filled by
`get_episodes`. -/
structure EpisodeResponse where
  uuid : String
  name : Value
  content : Value
  source_type : Value
  source_description : Value
  reference_time : Value
  created_at : Value

/-- `EpisodeType.text`, an enum constant of the external `graphiti_core`
library, modelled as an external constant; its `value` attribute is the
string "text" in the library, and reading `value` from the model falls back
to the same default "text", so the modelling choice is observationally
irrelevant here. -/
def episode_type_text : Value := .foreign "EpisodeType.text"

/-- The per-episode conversion of `get_episodes` (api.py lines 621-631): the
episode is passed through `clean_embedding_data` and every response field is
then read from the cleaned value with `getattr` and a default.  `now` stands
for `datetime.now(timezone.utc).replace(tzinfo=None)`. -/
def episode_response_of (now : Value) (ep : Value) : EpisodeResponse :=
  let cleaned := clean_embedding_data ep
  { uuid := pyStr (pyGetattr cleaned "uuid" (.str ""))
    name := pyGetattr cleaned "name" (.str "")
    content := pyGetattr cleaned "episode_body" (.str "")
    source_type := pyGetattr (pyGetattr cleaned "source" episode_type_text)
      "value" (.str "text")
    source_description := pyGetattr cleaned "source_description" .none
    reference_time := pyGetattr cleaned "reference_time" now
    created_at := pyGetattr cleaned "created_at" now }

/-! ### Claim-level predicates

The spec's Embedding Vector heuristic speaks of numeric sequences; in the
Python value universe an ordered sequence is a list or a tuple.  The
Heavy/Internal Field predicate covers `should_drop_key` together with the
separate `attributes` test of the cleaning loops. -/

/-- The spec's Heavy/Internal Field predicate on keys: case-insensitive
"embedding" substring, `name_embedding`, `fact_embedding`, or the exact key
`attributes`. -/
def heavyKey (k : String) : Bool := should_drop_key k || k == "attributes"

/-- The spec's Embedding Vector shape on a single value: an ordered sequence
(list or tuple) of length at least 32 whose first 64 elements are all
numeric. -/
def embShaped : Value → Bool
  | .list l => decide (32 ≤ l.length) && (l.take 64).all isNumberInstance
  | .tuple l => decide (32 ≤ l.length) && (l.take 64).all isNumberInstance
  | _ => false

mutual

/-- Deep occurrence of an embedding-shaped sequence anywhere in a value. -/
def hasEmbShaped : Value → Bool
  | .list elems => embShaped (.list elems) || hasEmbShapedItems elems
  | .tuple elems => embShaped (.tuple elems) || hasEmbShapedItems elems
  | .dict entries => hasEmbShapedEntries entries
  | .obj attrs => hasEmbShapedEntries attrs
  | _ => false

/-- Deep occurrence of an embedding-shaped sequence in a list of values. -/
def hasEmbShapedItems : List Value → Bool
  | [] => false
  | e :: rest => hasEmbShaped e || hasEmbShapedItems rest

/-- Deep occurrence of an embedding-shaped sequence in mapping entries. -/
def hasEmbShapedEntries : List (String × Value) → Bool
  | [] => false
  | (_, v) :: rest => hasEmbShaped v || hasEmbShapedEntries rest

end

mutual

/-- Deep occurrence of a heavy key in any mapping or attribute view of a
value. -/
def hasHeavyKey : Value → Bool
  | .dict entries => hasHeavyKeyEntries entries
  | .obj attrs => hasHeavyKeyEntries attrs
  | .list elems => hasHeavyKeyItems elems
  | .tuple elems => hasHeavyKeyItems elems
  | _ => false

/-- Deep occurrence of a heavy key below mapping entries. -/
def hasHeavyKeyEntries : List (String × Value) → Bool
  | [] => false
  | (k, v) :: rest => heavyKey k || hasHeavyKey v || hasHeavyKeyEntries rest

/-- Deep occurrence of a heavy key below a list of values. -/
def hasHeavyKeyItems : List Value → Bool
  | [] => false
  | v :: rest => hasHeavyKey v || hasHeavyKeyItems rest

end

mutual

/-- Inputs on which the sanitizer provably leaks no embedding-shaped value:
no tuples anywhere (the sanitizer rebuilds a tuple as a list, which can
create a value the heuristic matches), and no sequence element that is the
`None` scalar or an embedding-shaped list (removing such elements can shorten
a mixed sequence into an all-numeric one the heuristic matches).  Mapping
values are unrestricted beyond recursion: entries whose value is `None` or an
embedding-shaped list are dropped key and all, which cannot create a leak. -/
def goodInput : Value → Bool
  | .tuple _ => false
  | .list elems => goodItems elems
  | .dict entries => goodEntries entries
  | .obj attrs => goodEntries attrs
  | _ => true

/-- `goodInput` for the elements of a sequence. -/
def goodItems : List Value → Bool
  | [] => true
  | e :: rest => !isNone e && !is_large_float_list e && goodInput e && goodItems rest

/-- `goodInput` for mapping entries. -/
def goodEntries : List (String × Value) → Bool
  | [] => true
  | (_, v) :: rest => goodInput v && goodEntries rest

end

mutual

/-- Values that are fixed points of the sanitizer: built only from non-`None`
scalars, non-embedding-shaped lists with no `None` elements, and mappings
with no heavy keys and no `None` values.  Tuples and attribute-bearing
objects are excluded because the sanitizer rewrites them into lists and
mappings. -/
def sanitary : Value → Bool
  | .tuple _ => false
  | .obj _ => false
  | .list elems => !embShaped (.list elems) && sanitaryItems elems
  | .dict entries => sanitaryEntries entries
  | _ => true

/-- `sanitary` for the elements of a list. -/
def sanitaryItems : List Value → Bool
  | [] => true
  | e :: rest => !isNone e && sanitary e && sanitaryItems rest

/-- `sanitary` for mapping entries. -/
def sanitaryEntries : List (String × Value) → Bool
  | [] => true
  | (k, v) :: rest => !heavyKey k && !isNone v && sanitary v && sanitaryEntries rest

end

/-- Entry list of a mapping value. -/
def dict_entries : Value → List (String × Value)
  | .dict es => es
  | _ => []

/-! ### Basic equations and characterizations -/

theorem clean_value_dict (es : List (String × Value)) :
    clean_value (.dict es) = .dict (clean_entries es) := rfl

theorem clean_value_obj (attrs : List (String × Value)) :
    clean_value (.obj attrs) = .dict (clean_entries attrs) := rfl

theorem clean_value_tuple (l : List Value) :
    clean_value (.tuple l) = .list (clean_items l) := rfl

theorem clean_value_list (l : List Value) :
    clean_value (.list l) =
      if is_large_float_list (.list l) then .none else .list (clean_items l) := rfl

theorem embShaped_list (l : List Value) :
    embShaped (.list l) = is_large_float_list (.list l) := rfl

theorem heavyKey_eq (k : String) :
    heavyKey k = (should_drop_key k || k == "attributes") := rfl

/-- The cleaned value is the `None` sentinel exactly when the input was the
`None` scalar or an embedding-shaped list. -/
theorem clean_none_char (v : Value) :
    isNone (clean_value v) = (isNone v || is_large_float_list v) := by
  cases v with
  | list l =>
    by_cases h : is_large_float_list (.list l) = true
    · simp [clean_value_list, h, isNone]
    · simp only [Bool.not_eq_true] at h
      simp [clean_value_list, h, isNone]
  | none => rfl
  | bool b => rfl
  | int n => rfl
  | float q => rfl
  | str s => rfl
  | tuple l => rfl
  | dict es => rfl
  | obj attrs => rfl
  | foreign t => rfl

/-- Cleaning a value that is neither `None` nor an embedding-shaped list
preserves whether the value is numeric. -/
theorem clean_preserves_number (v : Value) (h2 : is_large_float_list v = false) :
    isNumberInstance (clean_value v) = isNumberInstance v := by
  cases v with
  | list l => simp [clean_value_list, h2, isNumberInstance]
  | none => rfl
  | bool b => rfl
  | int n => rfl
  | float q => rfl
  | str s => rfl
  | tuple l => rfl
  | dict es => rfl
  | obj attrs => rfl
  | foreign t => rfl

theorem goodItems_mem (l : List Value) (h : goodItems l = true) :
    ∀ e ∈ l, isNone e = false ∧ is_large_float_list e = false ∧ goodInput e = true := by
  induction l with
  | nil => intro e he; cases he
  | cons x rest ih =>
    simp only [goodItems, Bool.and_eq_true, Bool.not_eq_true'] at h
    intro e he
    cases he with
    | head => exact ⟨h.1.1.1, h.1.1.2, h.1.2⟩
    | tail _ hmem => exact ih h.2 e hmem

/-- On a good element list the cleaning loop drops nothing. -/
theorem clean_items_of_good (l : List Value) (h : goodItems l = true) :
    clean_items l = l.map clean_value := by
  induction l with
  | nil => rfl
  | cons x rest ih =>
    simp only [goodItems, Bool.and_eq_true, Bool.not_eq_true'] at h
    have hx : isNone (clean_value x) = false := by
      rw [clean_none_char, h.1.1.1, h.1.1.2]; rfl
    simp only [clean_items, hx, Bool.false_eq_true, if_false, List.map]
    rw [ih h.2]

theorem all_congr_local {α : Type} (l : List α) (p q : α → Bool)
    (h : ∀ x ∈ l, p x = q x) : l.all p = l.all q := by
  induction l with
  | nil => rfl
  | cons x rest ih =>
    simp only [List.all_cons]
    rw [h x (List.mem_cons_self x rest), ih fun y hy => h y (List.mem_cons_of_mem x hy)]

/-- Elementwise cleaning of a good element list does not change whether the
list as a whole is embedding-shaped. -/
theorem emb_map_eq (l : List Value) (h : goodItems l = true) :
    is_large_float_list (.list (l.map clean_value)) = is_large_float_list (.list l) := by
  simp only [is_large_float_list, List.length_map]
  rw [← List.map_take]
  rw [List.all_map]
  have : ∀ x ∈ l.take 64, (isNumberInstance ∘ clean_value) x = isNumberInstance x := by
    intro x hx
    exact clean_preserves_number x (goodItems_mem l h x (List.take_subset 64 l hx)).2.1
  rw [all_congr_local _ _ _ this]

/-! ### The output never contains a heavy key -/

mutual

theorem clean_value_no_heavy (v : Value) : hasHeavyKey (clean_value v) = false := by
  cases v with
  | dict es => exact clean_entries_no_heavy es
  | obj attrs => exact clean_entries_no_heavy attrs
  | tuple l => exact clean_items_no_heavy l
  | list l =>
    cases hl : is_large_float_list (.list l) with
    | true => simp only [clean_value_list, hl, if_true]; rfl
    | false =>
      simp only [clean_value_list, hl, Bool.false_eq_true, if_false]
      exact clean_items_no_heavy l
  | none => rfl
  | bool b => rfl
  | int n => rfl
  | float q => rfl
  | str s => rfl
  | foreign t => rfl

theorem clean_entries_no_heavy (es : List (String × Value)) :
    hasHeavyKeyEntries (clean_entries es) = false := by
  match es with
  | [] => rfl
  | (k, v) :: rest =>
    cases hk : (should_drop_key k || k == "attributes") with
    | true =>
      simp only [clean_entries, hk, if_true]
      exact clean_entries_no_heavy rest
    | false =>
      cases hnv : isNone (clean_value v) with
      | true =>
        simp only [clean_entries, hk, hnv, Bool.false_eq_true, if_false, if_true]
        exact clean_entries_no_heavy rest
      | false =>
        simp only [clean_entries, hk, hnv, Bool.false_eq_true, if_false,
          hasHeavyKeyEntries, heavyKey_eq]
        rw [clean_value_no_heavy v, clean_entries_no_heavy rest]
        rfl

theorem clean_items_no_heavy (l : List Value) :
    hasHeavyKeyItems (clean_items l) = false := by
  match l with
  | [] => rfl
  | item :: rest =>
    cases hni : isNone (clean_value item) with
    | true =>
      simp only [clean_items, hni, if_true]
      exact clean_items_no_heavy rest
    | false =>
      simp only [clean_items, hni, Bool.false_eq_true, if_false, hasHeavyKeyItems]
      rw [clean_value_no_heavy item, clean_items_no_heavy rest]
      rfl

end

/-! ### On good inputs the output is sanitary -/

mutual

theorem clean_value_sanitary (v : Value) (h : goodInput v = true) :
    sanitary (clean_value v) = true := by
  cases v with
  | tuple l => exact nomatch h
  | dict es => exact clean_entries_sanitary es h
  | obj attrs => exact clean_entries_sanitary attrs h
  | list l =>
    cases hl : is_large_float_list (.list l) with
    | true => simp only [clean_value_list, hl, if_true]; rfl
    | false =>
      simp only [clean_value_list, hl, Bool.false_eq_true, if_false]
      have h1 : sanitaryItems (clean_items l) = true := clean_items_sanitary l h
      have h2 : embShaped (.list (clean_items l)) = false := by
        rw [clean_items_of_good l h, embShaped_list, emb_map_eq l h]; exact hl
      simp only [sanitary, h1, h2]
      rfl
  | none => rfl
  | bool b => rfl
  | int n => rfl
  | float q => rfl
  | str s => rfl
  | foreign t => rfl

theorem clean_entries_sanitary (es : List (String × Value)) (h : goodEntries es = true) :
    sanitaryEntries (clean_entries es) = true := by
  match es with
  | [] => rfl
  | (k, v) :: rest =>
    simp only [goodEntries, Bool.and_eq_true] at h
    cases hk : (should_drop_key k || k == "attributes") with
    | true =>
      simp only [clean_entries, hk, if_true]
      exact clean_entries_sanitary rest h.2
    | false =>
      cases hnv : isNone (clean_value v) with
      | true =>
        simp only [clean_entries, hk, hnv, Bool.false_eq_true, if_false, if_true]
        exact clean_entries_sanitary rest h.2
      | false =>
        simp only [clean_entries, hk, hnv, Bool.false_eq_true, if_false,
          sanitaryEntries, heavyKey_eq, hk]
        rw [clean_value_sanitary v h.1, clean_entries_sanitary rest h.2]
        rfl

theorem clean_items_sanitary (l : List Value) (h : goodItems l = true) :
    sanitaryItems (clean_items l) = true := by
  match l with
  | [] => rfl
  | item :: rest =>
    simp only [goodItems, Bool.and_eq_true] at h
    cases hni : isNone (clean_value item) with
    | true =>
      simp only [clean_items, hni, if_true]
      exact clean_items_sanitary rest h.2
    | false =>
      simp only [clean_items, hni, Bool.false_eq_true, if_false, sanitaryItems]
      rw [clean_value_sanitary item h.1.2, clean_items_sanitary rest h.2]
      rfl

end

/-! ### Sanitary values are fixed points of the sanitizer -/

mutual

theorem clean_value_fix (v : Value) (h : sanitary v = true) : clean_value v = v := by
  cases v with
  | tuple l => exact nomatch h
  | obj attrs => exact nomatch h
  | dict es => exact congrArg Value.dict (clean_entries_fix es h)
  | list l =>
    simp only [sanitary, Bool.and_eq_true, Bool.not_eq_true'] at h
    have hl : is_large_float_list (.list l) = false := by
      rw [← embShaped_list]; exact h.1
    simp only [clean_value_list, hl, Bool.false_eq_true, if_false]
    exact congrArg Value.list (clean_items_fix l h.2)
  | none => rfl
  | bool b => rfl
  | int n => rfl
  | float q => rfl
  | str s => rfl
  | foreign t => rfl

theorem clean_entries_fix (es : List (String × Value)) (h : sanitaryEntries es = true) :
    clean_entries es = es := by
  match es with
  | [] => rfl
  | (k, v) :: rest =>
    simp only [sanitaryEntries, Bool.and_eq_true, Bool.not_eq_true'] at h
    have hk : (should_drop_key k || k == "attributes") = false := by
      rw [← heavyKey_eq]; exact h.1.1.1
    have hcv : clean_value v = v := clean_value_fix v h.1.2
    simp only [clean_entries, hk, Bool.false_eq_true, if_false, hcv, h.1.1.2]
    rw [clean_entries_fix rest h.2]

theorem clean_items_fix (l : List Value) (h : sanitaryItems l = true) :
    clean_items l = l := by
  match l with
  | [] => rfl
  | item :: rest =>
    simp only [sanitaryItems, Bool.and_eq_true, Bool.not_eq_true'] at h
    have hci : clean_value item = item := clean_value_fix item h.1.2
    simp only [clean_items, hci, h.1.1, Bool.false_eq_true, if_false]
    rw [clean_items_fix rest h.2]

end

/-! ### Sanitary values contain no embedding-shaped sequence -/

mutual

theorem sanitary_no_emb (v : Value) (h : sanitary v = true) : hasEmbShaped v = false := by
  cases v with
  | tuple l => exact nomatch h
  | obj attrs => exact nomatch h
  | dict es => exact sanitaryEntries_no_emb es h
  | list l =>
    simp only [sanitary, Bool.and_eq_true, Bool.not_eq_true'] at h
    simp only [hasEmbShaped, h.1, Bool.false_or]
    exact sanitaryItems_no_emb l h.2
  | none => rfl
  | bool b => rfl
  | int n => rfl
  | float q => rfl
  | str s => rfl
  | foreign t => rfl

theorem sanitaryEntries_no_emb (es : List (String × Value)) (h : sanitaryEntries es = true) :
    hasEmbShapedEntries es = false := by
  match es with
  | [] => rfl
  | (k, v) :: rest =>
    simp only [sanitaryEntries, Bool.and_eq_true, Bool.not_eq_true'] at h
    simp only [hasEmbShapedEntries]
    rw [sanitary_no_emb v h.1.2, sanitaryEntries_no_emb rest h.2]
    rfl

theorem sanitaryItems_no_emb (l : List Value) (h : sanitaryItems l = true) :
    hasEmbShapedItems l = false := by
  match l with
  | [] => rfl
  | item :: rest =>
    simp only [sanitaryItems, Bool.and_eq_true, Bool.not_eq_true'] at h
    simp only [hasEmbShapedItems]
    rw [sanitary_no_emb item h.1.2, sanitaryItems_no_emb rest h.2]
    rfl

end

/-! ### The exception-explicit sanitizer never raises -/

theorem bind_ok_local {ε : Type} {α β : Type} (a : α) (f : α → Except ε β) :
    (Except.ok a : Except ε α) >>= f = f a := rfl

theorem absorbed_eq (v : Value) :
    is_large_float_list_absorbed v = is_large_float_list v := by
  cases v with
  | list l =>
    have hred : is_large_float_list_absorbed (.list l)
        = (if 32 ≤ l.length then (List.take 64 l).all isNumberInstance else false) := by
      show (match (if 32 ≤ l.length then Except.ok ((List.take 64 l).all isNumberInstance)
          else Except.ok false : Except String Bool) with
        | Except.ok b => b
        | Except.error _ => false)
        = (if 32 ≤ l.length then (List.take 64 l).all isNumberInstance else false)
      by_cases hn : 32 ≤ l.length
      · rw [if_pos hn, if_pos hn]
      · rw [if_neg hn, if_neg hn]
    rw [hred]
    simp only [is_large_float_list]
    by_cases hn : 32 ≤ l.length
    · simp [hn]
    · simp [hn]
  | none => rfl
  | bool b => rfl
  | int n => rfl
  | float q => rfl
  | str s => rfl
  | tuple l => rfl
  | dict es => rfl
  | obj attrs => rfl
  | foreign t => rfl

mutual

theorem clean_valueE_ok (v : Value) : clean_valueE v = .ok (clean_value v) := by
  cases v with
  | dict es =>
    show Except.bind (clean_entriesE es) (fun x => pure (Value.dict x))
      = .ok (clean_value (.dict es))
    rw [clean_entriesE_ok es, clean_value_dict]
    rfl
  | obj attrs =>
    show Except.bind (clean_entriesE attrs) (fun x => pure (Value.dict x))
      = .ok (clean_value (.obj attrs))
    rw [clean_entriesE_ok attrs, clean_value_obj]
    rfl
  | tuple l =>
    show Except.bind (clean_itemsE l) (fun x => pure (Value.list x))
      = .ok (clean_value (.tuple l))
    rw [clean_itemsE_ok l, clean_value_tuple]
    rfl
  | list l =>
    have he : is_large_float_list_absorbed (.list l) = is_large_float_list (.list l) :=
      absorbed_eq (.list l)
    cases hl : is_large_float_list (.list l) with
    | true =>
      simp only [clean_valueE, he, hl, if_true, clean_value_list]
    | false =>
      simp only [clean_valueE, he, hl, Bool.false_eq_true, if_false, clean_value_list]
      rw [clean_itemsE_ok l]
      rfl
  | none => rfl
  | bool b => rfl
  | int n => rfl
  | float q => rfl
  | str s => rfl
  | foreign t => rfl

theorem clean_entriesE_ok (es : List (String × Value)) :
    clean_entriesE es = .ok (clean_entries es) := by
  match es with
  | [] => rfl
  | (k, v) :: rest =>
    cases hk : (should_drop_key k || k == "attributes") with
    | true =>
      simp only [clean_entriesE, clean_entries, hk, if_true]
      exact clean_entriesE_ok rest
    | false =>
      simp only [clean_entriesE, clean_entries, hk, Bool.false_eq_true, if_false]
      rw [clean_valueE_ok v]
      rw [bind_ok_local]
      cases hnv : isNone (clean_value v) with
      | true =>
        simp only [hnv, if_true]
        exact clean_entriesE_ok rest
      | false =>
        simp only [hnv, Bool.false_eq_true, if_false]
        rw [clean_entriesE_ok rest, bind_ok_local]
        rfl

theorem clean_itemsE_ok (l : List Value) : clean_itemsE l = .ok (clean_items l) := by
  match l with
  | [] => rfl
  | item :: rest =>
    simp only [clean_itemsE, clean_items]
    rw [clean_valueE_ok item]
    rw [bind_ok_local]
    cases hni : isNone (clean_value item) with
    | true =>
      simp only [hni, if_true]
      exact clean_itemsE_ok rest
    | false =>
      simp only [hni, Bool.false_eq_true, if_false]
      rw [clean_itemsE_ok rest, bind_ok_local]
      rfl

end

/-! ### Membership in cleaned mapping entries -/

theorem mem_clean_entries (es : List (String × Value)) (k : String) (v : Value)
    (hmem : (k, v) ∈ es) (hk : (should_drop_key k || k == "attributes") = false)
    (hv : isNone (clean_value v) = false) :
    (k, clean_value v) ∈ clean_entries es := by
  induction es with
  | nil => cases hmem
  | cons head rest ih =>
    obtain ⟨k', v'⟩ := head
    cases hmem with
    | head =>
      simp only [clean_entries, hk, Bool.false_eq_true, if_false, hv]
      exact List.mem_cons_self _ _
    | tail _ hmem' =>
      have hrec := ih hmem'
      cases hk' : (should_drop_key k' || k' == "attributes") with
      | true => simpa only [clean_entries, hk', if_true] using hrec
      | false =>
        cases hnv' : isNone (clean_value v') with
        | true =>
          simpa only [clean_entries, hk', hnv', Bool.false_eq_true, if_false,
            if_true] using hrec
        | false =>
          simp only [clean_entries, hk', hnv', Bool.false_eq_true, if_false]
          exact List.mem_cons_of_mem _ hrec

/-! ### Claims -/

/-- C1, counterexample: the no-leakage invariant fails as stated.  For the
input list `[None, 1.0, 1.0, ...]` (one `None` followed by 39 floats, so not
embedding-shaped because its first element is not numeric), cleaning drops
the `None` element and returns a list of 39 floats, which is a numeric
sequence of length at least 32 with an all-numeric 64-prefix. -/
theorem C1_counterexample :
    hasEmbShaped (clean_embedding_data
      (.list (Value.none :: List.replicate 39 (Value.float 1)))) = true := rfl

/-- C1, amended: the output of the sanitizer never contains a key matching
the heavy-field predicate, at any depth; and for inputs containing no tuples
and no sequence element that is `None` or an embedding-shaped list (the two
ways cleaning can shorten or rebuild a sequence into an embedding-shaped
list), the output also contains no embedding-shaped sequence at any depth. -/
theorem C1_amended (v : Value) :
    hasHeavyKey (clean_embedding_data v) = false ∧
      (goodInput v = true → hasEmbShaped (clean_embedding_data v) = false) :=
  ⟨clean_value_no_heavy v, fun h => sanitary_no_emb _ (clean_value_sanitary v h)⟩

/-- C1, witness for the amended claim at a concrete good input. -/
theorem C1_amended_witness :
    hasHeavyKey (clean_embedding_data (.dict [("fact", .str "x works at Y")])) = false ∧
      hasEmbShaped (clean_embedding_data (.dict [("fact", .str "x works at Y")])) = false :=
  ⟨(C1_amended (.dict [("fact", .str "x works at Y")])).1,
    (C1_amended (.dict [("fact", .str "x works at Y")])).2 rfl⟩

/-- C2: totality.  The exception-explicit sanitizer returns `ok` of the pure
result on every input of the Result Value universe (the heuristic's
`try`/`except` absorbs any error raised while testing the embedding shape),
and unrecognized scalar-like values pass through unchanged. -/
theorem C2_total_no_raise :
    (∀ v : Value, clean_valueE v = .ok (clean_value v)) ∧
      (∀ s : String, clean_embedding_data (.foreign s) = .foreign s) :=
  ⟨clean_valueE_ok, fun _ => rfl⟩

/-- C3, counterexample: idempotence fails as stated.  A tuple of 40 integers
is rebuilt by the first pass as a list of 40 integers, which the second pass
recognizes as embedding-shaped and collapses to the `None` sentinel. -/
theorem C3_counterexample :
    clean_embedding_data (clean_embedding_data (.tuple (List.replicate 40 (Value.int 2))))
      ≠ clean_embedding_data (.tuple (List.replicate 40 (Value.int 2))) := by
  intro h
  have h2 : Value.none = Value.list (List.replicate 40 (Value.int 2)) := h
  exact Value.noConfusion h2

/-- C3, amended: on inputs containing no tuples and no sequence element that
is `None` or an embedding-shaped list, the sanitizer is idempotent and its
(doubly) sanitized output has no embedding-shaped field and no heavy-key
field. -/
theorem C3_amended (v : Value) (h : goodInput v = true) :
    clean_embedding_data (clean_embedding_data v) = clean_embedding_data v ∧
      hasEmbShaped (clean_embedding_data (clean_embedding_data v)) = false ∧
      hasHeavyKey (clean_embedding_data (clean_embedding_data v)) = false := by
  have hs : sanitary (clean_value v) = true := clean_value_sanitary v h
  have hfix : clean_value (clean_value v) = clean_value v := clean_value_fix _ hs
  refine ⟨hfix, ?_, ?_⟩
  · show hasEmbShaped (clean_value (clean_value v)) = false
    rw [hfix]
    exact sanitary_no_emb _ hs
  · exact clean_value_no_heavy _

/-- C3, witness for the amended claim at a concrete good input. -/
theorem C3_amended_witness :
    clean_embedding_data (clean_embedding_data (.dict [("uuid", .str "abc")]))
        = clean_embedding_data (.dict [("uuid", .str "abc")]) ∧
      hasEmbShaped (clean_embedding_data
        (clean_embedding_data (.dict [("uuid", .str "abc")]))) = false ∧
      hasHeavyKey (clean_embedding_data
        (clean_embedding_data (.dict [("uuid", .str "abc")]))) = false :=
  C3_amended (.dict [("uuid", .str "abc")]) rfl

/-- C4, counterexample: a present `None` value is not preserved.  The key
`k` is not heavy, its value `None` is present in the input mapping, yet the
output mapping is empty, because the sanitizer's absent sentinel is the
`None` value itself and the membership test `cv is not None` cannot tell a
sanitized `None` scalar from a dropped embedding. -/
theorem C4_counterexample :
    should_drop_key "k" = false ∧ (("k" : String) == "attributes") = false ∧
      clean_embedding_data (.dict [("k", Value.none)]) = .dict [] :=
  ⟨rfl, rfl, rfl⟩

/-- C4, amended: when sanitizing a mapping, every non-heavy key whose
recursively cleaned value is not the `None` sentinel appears in the output
with that cleaned value; empty nested mappings and zero are preserved; but a
key whose value is the `None` scalar is omitted, since the absent sentinel
and the null scalar are the same value. -/
theorem C4_amended (es : List (String × Value)) (k : String) (v : Value)
    (hk : (should_drop_key k || k == "attributes") = false) :
    ((k, v) ∈ es → isNone (clean_value v) = false →
        (k, clean_value v) ∈ dict_entries (clean_embedding_data (.dict es))) ∧
      clean_embedding_data (.dict [(k, .dict [])]) = .dict [(k, .dict [])] ∧
      clean_embedding_data (.dict [(k, .int 0)]) = .dict [(k, .int 0)] ∧
      clean_embedding_data (.dict [(k, Value.none)]) = .dict [] := by
  refine ⟨fun hmem hv => ?_, ?_, ?_, ?_⟩
  · show (k, clean_value v) ∈ dict_entries (.dict (clean_entries es))
    exact mem_clean_entries es k v hmem hk hv
  · show Value.dict (clean_entries [(k, .dict [])]) = .dict [(k, .dict [])]
    simp only [clean_entries, hk, Bool.false_eq_true, if_false]
    rfl
  · show Value.dict (clean_entries [(k, .int 0)]) = .dict [(k, .int 0)]
    simp only [clean_entries, hk, Bool.false_eq_true, if_false]
    rfl
  · show Value.dict (clean_entries [(k, Value.none)]) = .dict []
    simp only [clean_entries, hk, Bool.false_eq_true, if_false]
    rfl

/-- C4, witness for the amended claim at a concrete non-heavy key. -/
theorem C4_amended_witness :
    (("uuid", Value.int 7) ∈ dict_entries (clean_embedding_data
        (.dict [("uuid", Value.int 7)]))) ∧
      clean_embedding_data (.dict [("uuid", .dict [])]) = .dict [("uuid", .dict [])] ∧
      clean_embedding_data (.dict [("uuid", .int 0)]) = .dict [("uuid", .int 0)] ∧
      clean_embedding_data (.dict [("uuid", Value.none)]) = .dict [] := by
  have t := C4_amended [("uuid", Value.int 7)] "uuid" (Value.int 7) rfl
  exact ⟨t.1 (List.mem_cons_self _ _) rfl, t.2.1, t.2.2.1, t.2.2.2⟩

/-- C5, counterexample: shape preservation fails as stated.  The mapping
with the single entry `k : None` contains no embedding-shaped value and no
heavy key, yet sanitization removes the entry. -/
theorem C5_counterexample :
    hasEmbShaped (.dict [("k", Value.none)]) = false ∧
      hasHeavyKey (.dict [("k", Value.none)]) = false ∧
      clean_embedding_data (.dict [("k", Value.none)]) ≠ .dict [("k", Value.none)] := by
  refine ⟨rfl, rfl, fun h => ?_⟩
  have h2 : (Value.dict []) = Value.dict [("k", Value.none)] := h
  injection h2 with h3
  exact List.noConfusion h3

/-- C5, amended: sanitization is the identity on inputs built only from
non-`None` scalars, non-embedding-shaped lists with no `None` elements, and
mappings with no heavy keys and no `None` values (tuples and
attribute-bearing objects are excluded, since the sanitizer rewrites them
into lists and mappings, and `None`-valued entries and elements are excluded,
since the sanitizer drops them). -/
theorem C5_amended (v : Value) (h : sanitary v = true) :
    clean_embedding_data v = v :=
  clean_value_fix v h

/-- C5, witness: a clean mapping with a short numeric list passes through
unchanged. -/
theorem C5_amended_witness :
    clean_embedding_data (.dict [("uuid", .str "abc"),
        ("coords", .list [.int 1, .int 2, .int 3])])
      = .dict [("uuid", .str "abc"), ("coords", .list [.int 1, .int 2, .int 3])] :=
  C5_amended (.dict [("uuid", .str "abc"),
    ("coords", .list [.int 1, .int 2, .int 3])]) rfl

/-- C6, counterexample: the search-nodes conversion is not a pipe through
the sanitizer.  On the raw node object with attribute `uuid = "u1"` the code
projects `uuid = "u1"` directly from the raw object, while the conversion the
spec describes (sanitize first, then project) yields the default empty
string, because sanitization turns the object into a plain mapping whose
entries `getattr` cannot see. -/
theorem C6_counterexample :
    node_response_of (.foreign "now") (.obj [("uuid", .str "u1")])
      ≠ node_response_piped (.foreign "now") (.obj [("uuid", .str "u1")]) := by
  intro h
  have h2 : ("u1" : String) = "" := congrArg NodeResponse.uuid h
  exact absurd h2 (by decide)

/-- C6, amended: the episode-listing and cypher-query conversions pass each
raw engine result through the sanitizer and depend on the raw result only
through its sanitized form; the fact-search conversion first gates on the
raw result having a `fact` attribute and beyond that gate depends only on
the sanitized form; the search-nodes conversion does not invoke the
sanitizer and instead projects five fixed fields directly from the raw
node. -/
theorem C6_amended (r1 r2 now : Value)
    (h : clean_embedding_data r1 = clean_embedding_data r2) :
    episode_response_of now r1 = episode_response_of now r2 ∧
      cypher_row_of r1 = cypher_row_of r2 ∧
      (pyHasattr r1 "fact" = pyHasattr r2 "fact" →
        fact_response_of r1 = fact_response_of r2) := by
  refine ⟨?_, ?_, fun hgate => ?_⟩
  · simp only [episode_response_of, h]
  · simp only [cypher_row_of, h]
  · simp only [fact_response_of, hgate, h]

/-- C6, witness for the amended claim: a raw fact edge with a
`name_embedding` field and the same edge without it sanitize to the same
mapping, both carry the `fact` attribute, and yield the same episode, cypher
and fact responses. -/
theorem C6_amended_witness :
    episode_response_of (.foreign "t0")
          (.obj [("fact", .str "hi"),
            ("name_embedding", .list (List.replicate 40 (Value.float 0)))])
        = episode_response_of (.foreign "t0") (.obj [("fact", .str "hi")]) ∧
      cypher_row_of (.obj [("fact", .str "hi"),
            ("name_embedding", .list (List.replicate 40 (Value.float 0)))])
        = cypher_row_of (.obj [("fact", .str "hi")]) ∧
      fact_response_of (.obj [("fact", .str "hi"),
            ("name_embedding", .list (List.replicate 40 (Value.float 0)))])
        = fact_response_of (.obj [("fact", .str "hi")]) := by
  have t := C6_amended
    (.obj [("fact", .str "hi"),
      ("name_embedding", .list (List.replicate 40 (Value.float 0)))])
    (.obj [("fact", .str "hi")]) (.foreign "t0") rfl
  exact ⟨t.1, t.2.1, t.2.2 rfl⟩

/-- C7, counterexample: a top-level tuple of 50 floats is a sequence of
length at least 32 whose first 64 elements are all numeric, yet the sanitizer
does not return the absent sentinel for it: the embedding heuristic only
matches `list` instances, so the tuple is rebuilt as a list of 50 floats. -/
theorem C7_counterexample :
    embShaped (.tuple (List.replicate 50 (Value.float 0))) = true ∧
      clean_embedding_data (.tuple (List.replicate 50 (Value.float 0))) ≠ Value.none := by
  refine ⟨rfl, fun h => ?_⟩
  have h2 : Value.list (List.replicate 50 (Value.float 0)) = Value.none := h
  exact Value.noConfusion h2

/-- C7, amended: embedding-shape detection precedes all other classification,
so for any top-level `list` matching the heuristic (length at least 32 and
all-numeric 64-prefix) the sanitizer returns the absent sentinel; a numeric
tuple of that shape is instead rebuilt as a list. -/
theorem C7_amended (v : Value) (h : is_large_float_list v = true) :
    clean_embedding_data v = Value.none := by
  cases v with
  | list l =>
    show clean_value (.list l) = Value.none
    rw [clean_value_list, if_pos h]
  | none => exact nomatch h
  | bool b => exact nomatch h
  | int n => exact nomatch h
  | float q => exact nomatch h
  | str s => exact nomatch h
  | tuple l => exact nomatch h
  | dict es => exact nomatch h
  | obj attrs => exact nomatch h
  | foreign t => exact nomatch h

/-- C7, witness: the spec's scenario, a top-level list of 50 floats, maps to
the absent sentinel. -/
theorem C7_amended_witness :
    clean_embedding_data (.list (List.replicate 50 (Value.float 0))) = Value.none :=
  C7_amended (.list (List.replicate 50 (Value.float 0))) rfl

/-- C9: the sanitizer maps every attribute-bearing object to a plain mapping,
so the `getattr` lookups `get_episodes` performs on the sanitized episode all
miss and every returned episode carries the defaults: empty uuid, name and
content, fallback source type "text", no source description, and the
fallback timestamps, regardless of the original node's field values. -/
theorem C9_episode_defaults (now : Value) (attrs : List (String × Value)) :
    (∃ es, clean_embedding_data (.obj attrs) = Value.dict es) ∧
      episode_response_of now (.obj attrs) =
        { uuid := "", name := .str "", content := .str "",
          source_type := .str "text", source_description := Value.none,
          reference_time := now, created_at := now } :=
  ⟨⟨clean_entries attrs, rfl⟩, rfl⟩

/-- C10: booleans count as numeric in the embedding test, because Python
`bool` is a subclass of `int`: every list of length at least 32 whose first
`min(64, length)` elements are booleans, integers or floats is classified as
an embedding and dropped. -/
theorem C10_bool_numeric (l : List Value) (hlen : 32 ≤ l.length)
    (hnum : ∀ x ∈ l.take 64, isNumberInstance x = true) :
    is_large_float_list (.list l) = true ∧
      clean_embedding_data (.list l) = Value.none := by
  have h1 : is_large_float_list (.list l) = true := by
    simp only [is_large_float_list, Bool.and_eq_true, decide_eq_true_eq]
    exact ⟨hlen, List.all_eq_true.mpr hnum⟩
  refine ⟨h1, ?_⟩
  show clean_value (.list l) = Value.none
  simp only [clean_value_list, h1, if_true]

/-- C10, witness: a list of 32 booleans is dropped as an embedding. -/
theorem C10_bool_numeric_witness :
    is_large_float_list (.list (List.replicate 32 (Value.bool true))) = true ∧
      clean_embedding_data (.list (List.replicate 32 (Value.bool true))) = Value.none :=
  C10_bool_numeric (List.replicate 32 (Value.bool true)) (by decide) (by decide)
